import Mathlib

/-!
Verification of the Query Safety & Rewrite Gateway.

Strings are modelled as `List Char`; the Python string operations used by the
source (strip, rstrip, lower, find, split, the `in` substring test and the
handful of fixed regular expressions) are given faithful executable models.
All character classes in the source's patterns are ASCII (`[a-zA-Z0-9_]`,
explicit keyword literals), so case mapping is modelled on ASCII.
-/

/-! ### Character classes and basic Python string operations -/

/-- Python whitespace, by code point (space, tab, newline, carriage return,
vertical tab, form feed). -/
def isPyWs (c : Char) : Bool :=
  decide (c.toNat = 32 ∨ c.toNat = 9 ∨ c.toNat = 10 ∨ c.toNat = 13 ∨
          c.toNat = 11 ∨ c.toNat = 12)

/-- ASCII word character, the class `[a-zA-Z0-9_]` used throughout the
source's patterns (and by the word-boundary assertions on this input set). -/
def isWordChar (c : Char) : Bool :=
  decide ((48 ≤ c.toNat ∧ c.toNat ≤ 57) ∨ (65 ≤ c.toNat ∧ c.toNat ≤ 90) ∨
          (97 ≤ c.toNat ∧ c.toNat ≤ 122) ∨ c.toNat = 95)

/-- The class `[a-zA-Z_]` that starts an identifier in the source's patterns. -/
def isIdentStart (c : Char) : Bool :=
  decide ((65 ≤ c.toNat ∧ c.toNat ≤ 90) ∨ (97 ≤ c.toNat ∧ c.toNat ≤ 122) ∨
          c.toNat = 95)

/-- ASCII lower-casing of one character, as Python's `str.lower` acts on the
ASCII inputs used here. -/
def pyLower (c : Char) : Char :=
  if 65 ≤ c.toNat ∧ c.toNat ≤ 90 then Char.ofNat (c.toNat + 32) else c

/-- ASCII upper-casing of one character. -/
def pyUpper (c : Char) : Char :=
  if 97 ≤ c.toNat ∧ c.toNat ≤ 122 then Char.ofNat (c.toNat - 32) else c

def lowerStr (l : List Char) : List Char := l.map pyLower

def upperStr (l : List Char) : List Char := l.map pyUpper

/-- Python `str.lstrip()`. -/
def pyLstrip (l : List Char) : List Char := l.dropWhile isPyWs

/-- Python `str.rstrip(...)` for an arbitrary character class. -/
def pyRstripBy (p : Char → Bool) (l : List Char) : List Char :=
  (l.reverse.dropWhile p).reverse

/-- Python `str.strip()`. -/
def pyStrip (l : List Char) : List Char := pyLstrip (pyRstripBy isPyWs l)

/-- Python `str.rstrip(";")`: removes every trailing semicolon. -/
def pyRstripSemi (l : List Char) : List Char := pyRstripBy (fun c => c == ';') l

def startsWithL : List Char → List Char → Bool
  | [], _ => true
  | _ :: _, [] => false
  | p :: ps, t :: ts => p == t && startsWithL ps ts

/-- Case-insensitive prefix test (ASCII). -/
def startsWithCIL : List Char → List Char → Bool
  | [], _ => true
  | _ :: _, [] => false
  | p :: ps, t :: ts => pyLower p == pyLower t && startsWithCIL ps ts

/-- Python's `pat in text` substring test. -/
def containsSub (pat : List Char) : List Char → Bool
  | [] => startsWithL pat []
  | c :: cs => startsWithL pat (c :: cs) || containsSub pat cs

/-- Python's `text.find(pat)`, as an optional first index. -/
def findSub (pat : List Char) : List Char → Option Nat
  | [] => if startsWithL pat [] then some 0 else none
  | c :: cs => if startsWithL pat (c :: cs) then some 0 else (findSub pat cs).map (· + 1)

/-- Maximal prefix of characters satisfying `p`, with the remainder. -/
def takeRunBy (p : Char → Bool) : List Char → List Char × List Char
  | [] => ([], [])
  | c :: cs =>
    if p c then
      let r := takeRunBy p cs
      (c :: r.1, r.2)
    else ([], c :: cs)

/-! ### Word-bounded occurrence

The specification's claims speak of keyword occurrences "as a standalone
word" (regular-expression word boundaries).  `containsWB kw l` decides
whether `kw` occurs in `l` with a non-word character (or an end of the
string) on both sides. -/

def wbBoundary : Option Char → Bool
  | none => true
  | some c => !isWordChar c

def wbAfterOk (kw l : List Char) : Bool :=
  match l.drop kw.length with
  | [] => true
  | d :: _ => !isWordChar d

def containsWBAux (kw : List Char) : Option Char → List Char → Bool
  | _, [] => false
  | prev, c :: cs =>
      (wbBoundary prev && startsWithL kw (c :: cs) && wbAfterOk kw (c :: cs)) ||
      containsWBAux kw (some c) cs

def containsWB (kw l : List Char) : Bool := containsWBAux kw none l

/-! ### Embedding of safeguards/sql_parser.py -/

/-- Outcome of `sqlglot.parse_one`, abstracted to what `is_safe_sql`
inspects: whether the node is a `Select`, a `With`, or something else (in
which case the node's display name is carried for the error message). -/
inductive SqlAst where
  | select : SqlAst
  | withStmt : SqlAst
  | other : List Char → SqlAst
deriving DecidableEq

/-- The parser is an oracle: `is_safe_sql` only consumes its verdict. -/
abbrev SqlParse := List Char → Except (List Char) SqlAst

/-- `isinstance(ast, (Select, With))`. -/
def allowedAst : SqlAst → Bool
  | .select => true
  | .withStmt => true
  | .other _ => false

/-- The display name the source builds from `ast.key`/type name. -/
def astNodeName : SqlAst → List Char
  | .select => "SELECT".data
  | .withStmt => "WITH".data
  | .other n => n

/-- `BLOCK_KW` from safeguards/sql_parser.py, verbatim: each entry is the
keyword padded with one space on both sides. -/
def BLOCK_KW : List (List Char) :=
  [" drop ".data, " truncate ".data, " alter ".data, " delete ".data,
   " update ".data, " insert ".data, " create table ".data,
   " create schema ".data, " create index ".data, " grant ".data,
   " revoke ".data, " vacuum ".data, " analyze ".data, " copy ".data,
   " call ".data, " do ".data]

/-- The same keywords without the space padding, used to state the claims'
"standalone word" condition. -/
def CORE_KW : List (List Char) :=
  ["drop".data, "truncate".data, "alter".data, "delete".data, "update".data,
   "insert".data, "create table".data, "create schema".data,
   "create index".data, "grant".data, "revoke".data, "vacuum".data,
   "analyze".data, "copy".data, "call".data, "do".data]

/-- The source's `for kw in BLOCK_KW: if kw in low_padded: ...` loop. -/
def findBlocked (lowPadded : List Char) : Option (List Char) :=
  BLOCK_KW.find? (fun kw => containsSub kw lowPadded)

/-- Reason string `f"Keyword bloqueada: {kw.strip().upper()}"`. -/
def blockedMsg (kw : List Char) : List Char :=
  "Keyword bloqueada: ".data ++ upperStr (pyStrip kw)

def soloMsg (node : List Char) : List Char :=
  "Solo SELECT/WITH/EXPLAIN permitidos (recibido: ".data ++ node ++ ")".data

/-- Python `s.split(None, 1)[1]`: `none` models the `IndexError` when there
is no second field. -/
def splitRestPy (s : List Char) : Option (List Char) :=
  let t := pyLstrip s
  let tok := takeRunBy (fun c => !isPyWs c) t
  match tok.1 with
  | [] => none
  | _ :: _ =>
    let rest := tok.2.dropWhile isPyWs
    if rest = [] then none else some rest

def idxOrNeg : Option Nat → Int
  | none => -1
  | some n => n

/-- The EXPLAIN-remainder selection of `is_safe_sql`: the source computes
`idx_sel = low.find(" select ")`, `idx_with = low.find(" with ")`,
`idx = max(idx_sel, idx_with)` and parses from `idx` unless it is `-1`, in
which case it drops the first whitespace-delimited token. -/
def explainInner (s low : List Char) : Option (List Char) :=
  let iSel := idxOrNeg (findSub " select ".data low)
  let iWith := idxOrNeg (findSub " with ".data low)
  let idx := max iSel iWith
  if idx = -1 then splitRestPy s
  else some (pyLstrip (s.drop idx.toNat))

/-- Modelled from the spec (§4.4, explain-wrapped): "locate the first
occurrence of a read-only statement keyword (`select` or `with`) following
it".  Written only to compare against `explainInner`. -/
def explainInnerSpecFirst (s low : List Char) : Option (List Char) :=
  match findSub " select ".data low, findSub " with ".data low with
  | none, none => splitRestPy s
  | some i, none => some (pyLstrip (s.drop i))
  | none, some j => some (pyLstrip (s.drop j))
  | some i, some j => some (pyLstrip (s.drop (min i j)))

/-- `is_safe_sql` from safeguards/sql_parser.py, over a parse oracle. -/
def is_safe_sql (parse : SqlParse) (sql : List Char) : Bool × List Char :=
  if pyStrip sql = [] then (false, "SQL vacío".data)
  else
    let s := pyRstripSemi (pyStrip sql)
    let low := pyLstrip (lowerStr s)
    if startsWithL "explain ".data low then
      match explainInner s low with
      | none => (false, "Parse error (EXPLAIN): list index out of range".data)
      | some inner =>
        match parse inner with
        | .error e => (false, "Parse error (EXPLAIN): ".data ++ e)
        | .ok ast =>
          if allowedAst ast then
            match findBlocked (' ' :: (lowerStr s ++ [' '])) with
            | some kw => (false, blockedMsg kw)
            | none => (true, "OK".data)
          else (false, "EXPLAIN solo permitido sobre SELECT/WITH".data)
    else
      match parse s with
      | .error e => (false, "Parse error: ".data ++ e)
      | .ok ast =>
        if allowedAst ast then
          match findBlocked (' ' :: (low ++ [' '])) with
          | some kw => (false, blockedMsg kw)
          | none => (true, "OK".data)
        else (false, soloMsg (astNodeName ast))

/-- The same validator with the spec's first-occurrence EXPLAIN remainder,
for the refinement comparison of claim C3. -/
def is_safe_sql_specFirst (parse : SqlParse) (sql : List Char) : Bool × List Char :=
  if pyStrip sql = [] then (false, "SQL vacío".data)
  else
    let s := pyRstripSemi (pyStrip sql)
    let low := pyLstrip (lowerStr s)
    if startsWithL "explain ".data low then
      match explainInnerSpecFirst s low with
      | none => (false, "Parse error (EXPLAIN): list index out of range".data)
      | some inner =>
        match parse inner with
        | .error e => (false, "Parse error (EXPLAIN): ".data ++ e)
        | .ok ast =>
          if allowedAst ast then
            match findBlocked (' ' :: (lowerStr s ++ [' '])) with
            | some kw => (false, blockedMsg kw)
            | none => (true, "OK".data)
          else (false, "EXPLAIN solo permitido sobre SELECT/WITH".data)
    else
      match parse s with
      | .error e => (false, "Parse error: ".data ++ e)
      | .ok ast =>
        if allowedAst ast then
          match findBlocked (' ' :: (low ++ [' '])) with
          | some kw => (false, blockedMsg kw)
          | none => (true, "OK".data)
        else (false, soloMsg (astNodeName ast))

/-- A concrete parse oracle recording sqlglot's behaviour on the statements
used in the concrete theorems below: text beginning with select/with parses
to the corresponding node kind, the empty string and the unbalanced
`"select 1 ) select * from t"` raise parse errors, and anything else is some
other command node. -/
def parseStub (s : List Char) : Except (List Char) SqlAst :=
  if s = "select 1 ) select * from t".data then Except.error "Expecting )".data
  else if s = [] then Except.error "No expression was parsed".data
  else if startsWithCIL "select".data s then Except.ok SqlAst.select
  else if startsWithCIL "with".data s then Except.ok SqlAst.withStmt
  else Except.ok (SqlAst.other "COMMAND".data)

example : is_safe_sql parseStub "select 'a,delete,b' from t".data = (true, "OK".data) := by decide
example : is_safe_sql parseStub "SELECT x FROM t".data = (true, "OK".data) := by decide
example : is_safe_sql parseStub ";".data =
    (false, "Parse error: No expression was parsed".data) := by decide
example : is_safe_sql parseStub "DROP TABLE datos_crudos.x".data =
    (false, soloMsg "COMMAND".data) := by decide
example : is_safe_sql parseStub "select 1; drop table x".data =
    (false, blockedMsg " drop ".data) := by decide
example :
    is_safe_sql parseStub "explain with t(c) as ( select 1 ) select * from t".data =
    (false, "Parse error (EXPLAIN): Expecting )".data) := by decide
example :
    is_safe_sql_specFirst parseStub "explain with t(c) as ( select 1 ) select * from t".data =
    (true, "OK".data) := by decide

/-! ### Substring and word-boundary lemmas -/

theorem startsWithL_append (p b : List Char) : startsWithL p (p ++ b) = true := by
  induction p with
  | nil => rfl
  | cons c cs ih => simp [startsWithL, ih]

theorem startsWithL_exists {p l : List Char} (h : startsWithL p l = true) :
    ∃ b, l = p ++ b := by
  induction p generalizing l with
  | nil => exact ⟨l, rfl⟩
  | cons c cs ih =>
    cases l with
    | nil => simp [startsWithL] at h
    | cons d ds =>
      simp only [startsWithL, Bool.and_eq_true, beq_iff_eq] at h
      obtain ⟨rfl, h2⟩ := h
      obtain ⟨b, rfl⟩ := ih h2
      exact ⟨b, rfl⟩

theorem containsSub_exists {p l : List Char} (h : containsSub p l = true) :
    ∃ a b, l = a ++ p ++ b := by
  induction l with
  | nil =>
    simp only [containsSub] at h
    obtain ⟨b, hb⟩ := startsWithL_exists h
    exact ⟨[], b, by simpa using hb⟩
  | cons c cs ih =>
    simp only [containsSub, Bool.or_eq_true] at h
    rcases h with h | h
    · obtain ⟨b, hb⟩ := startsWithL_exists h
      exact ⟨[], b, by simpa using hb⟩
    · obtain ⟨a, b, hb⟩ := ih h
      exact ⟨c :: a, b, by simp [hb]⟩

theorem containsWBAux_of_parts (kw : List Char) (hkw : kw ≠ []) :
    ∀ (a : List Char) (prev : Option Char) (b : List Char),
      (a = [] → wbBoundary prev = true) →
      (∀ c, a.getLast? = some c → isWordChar c = false) →
      (∀ c, b.head? = some c → isWordChar c = false) →
      containsWBAux kw prev (a ++ kw ++ b) = true := by
  intro a
  induction a with
  | nil =>
    intro prev b hprev _ hb
    cases hk : kw with
    | nil => exact absurd hk hkw
    | cons k ks =>
      subst hk
      show containsWBAux (k :: ks) prev (k :: (ks ++ b)) = true
      have h1 : startsWithL (k :: ks) ((k :: ks) ++ b) = true := startsWithL_append _ _
      have h2 : wbAfterOk (k :: ks) ((k :: ks) ++ b) = true := by
        unfold wbAfterOk
        rw [List.drop_left]
        cases b with
        | nil => rfl
        | cons d ds => simp [hb d rfl]
      simp only [containsWBAux, Bool.or_eq_true]
      left
      simp only [Bool.and_eq_true]
      refine ⟨⟨hprev rfl, ?_⟩, ?_⟩
      · simpa using h1
      · simpa using h2
  | cons c a' ih =>
    intro prev b _ ha hb
    show containsWBAux kw prev (c :: (a' ++ kw ++ b)) = true
    simp only [containsWBAux, Bool.or_eq_true]
    right
    apply ih (some c) b
    · intro ha'
      subst ha'
      have := ha c (by simp)
      simp [wbBoundary, this]
    · intro d hd
      apply ha
      cases a' with
      | nil => simp at hd
      | cons e es => simpa [List.getLast?] using hd
    · exact hb


theorem containsWB_of_padded {kw l : List Char} (hkw : kw ≠ [])
    (h : containsSub (' ' :: (kw ++ [' '])) (' ' :: (l ++ [' '])) = true) :
    containsWB kw l = true := by
  obtain ⟨a, b, hab⟩ := containsSub_exists h
  have hsp : isWordChar ' ' = false := by decide
  have hlastSp : ∀ x : List Char, ∀ c, (x ++ [' ']).getLast? = some c → isWordChar c = false := by
    intro x c hc
    rw [List.getLast?_concat] at hc
    cases hc
    exact hsp
  cases a with
  | nil =>
    simp only [List.nil_append, List.cons_append, List.cons.injEq] at hab
    have hab' : l ++ [' '] = kw ++ [' '] ++ b := hab.2
    rcases List.eq_nil_or_concat b with rfl | ⟨b', d, rfl⟩
    · rw [List.append_nil] at hab'
      have hl : l = kw := List.append_cancel_right hab'
      rw [hl]
      have := containsWBAux_of_parts kw hkw [] none [] (fun _ => rfl)
        (by intro c hc; simp at hc) (by intro c hc; simp at hc)
      simpa [containsWB] using this
    · simp only [List.concat_eq_append] at hab'
      have hd : d = ' ' := by
        have h1 : (l ++ [' ']).getLast? = some ' ' := List.getLast?_concat _
        have h2 : (kw ++ [' '] ++ (b' ++ [d])).getLast? = some d := by
          have hshape : kw ++ [' '] ++ (b' ++ [d]) = (kw ++ [' '] ++ b') ++ [d] := by simp
          rw [hshape]
          exact List.getLast?_concat _
        rw [hab', h2] at h1
        exact Option.some_inj.mp h1
      subst hd
      have hl : l = kw ++ [' '] ++ b' := by
        apply List.append_cancel_right
        rw [hab']
        simp
      subst hl
      have := containsWBAux_of_parts kw hkw [] none (' ' :: b') (fun _ => rfl)
        (by intro c hc; simp at hc)
        (by intro c hc; simp only [List.head?_cons, Option.some_inj] at hc; cases hc; exact hsp)
      simpa [containsWB] using this
  | cons c a' =>
    simp only [List.cons_append, List.cons.injEq] at hab
    have hab' : l ++ [' '] = a' ++ (' ' :: (kw ++ [' '])) ++ b := hab.2
    rcases List.eq_nil_or_concat b with rfl | ⟨b', d, rfl⟩
    · rw [List.append_nil] at hab'
      have hl : l = (a' ++ [' ']) ++ kw := by
        apply List.append_cancel_right
        rw [hab']
        simp
      subst hl
      have := containsWBAux_of_parts kw hkw (a' ++ [' ']) none [] (by simp)
        (hlastSp a') (by intro c hc; simp at hc)
      simpa [containsWB] using this
    · simp only [List.concat_eq_append] at hab'
      have hd : d = ' ' := by
        have h1 : (l ++ [' ']).getLast? = some ' ' := List.getLast?_concat _
        have h2 : (a' ++ (' ' :: (kw ++ [' '])) ++ (b' ++ [d])).getLast? = some d := by
          have hshape : a' ++ (' ' :: (kw ++ [' '])) ++ (b' ++ [d]) =
              (a' ++ (' ' :: (kw ++ [' '])) ++ b') ++ [d] := by simp
          rw [hshape]
          exact List.getLast?_concat _
        rw [hab', h2] at h1
        exact Option.some_inj.mp h1
      subst hd
      have hl : l = (a' ++ [' ']) ++ kw ++ (' ' :: b') := by
        apply List.append_cancel_right
        rw [hab']
        simp
      subst hl
      have := containsWBAux_of_parts kw hkw (a' ++ [' ']) none (' ' :: b') (by simp)
        (hlastSp a')
        (by intro c hc; simp only [List.head?_cons, Option.some_inj] at hc; cases hc; exact hsp)
      simpa [containsWB] using this

/-! ### The leading lstrip in `low` is a no-op on the already-stripped text -/

theorem char_toNat_ofNat {n : Nat} (h : n.isValidChar) : (Char.ofNat n).toNat = n := by
  rw [Char.ofNat, dif_pos h]
  simp [Char.ofNatAux, Char.toNat, UInt32.toNat, BitVec.toNat_ofNatLt]

theorem isPyWs_pyLower (c : Char) : isPyWs (pyLower c) = isPyWs c := by
  unfold pyLower
  split
  · next h =>
    have hv : (Char.ofNat (c.toNat + 32)).toNat = c.toNat + 32 := by
      apply char_toNat_ofNat
      exact Or.inl (by omega)
    simp only [isPyWs, hv, decide_eq_decide]
    omega
  · rfl

theorem head?_dropWhile_not {p : Char → Bool} {l : List Char} {c : Char}
    (h : (l.dropWhile p).head? = some c) : p c = false := by
  induction l with
  | nil => simp at h
  | cons d ds ih =>
    rw [List.dropWhile_cons] at h
    split at h
    · exact ih h
    · next hp =>
      simp only [List.head?_cons, Option.some_inj] at h
      cases h
      exact Bool.not_eq_true _ ▸ (by simpa using hp)

theorem pyRstripBy_prefix (p : Char → Bool) (l : List Char) :
    ∃ r, l = pyRstripBy p l ++ r := by
  refine ⟨(l.reverse.takeWhile p).reverse, ?_⟩
  unfold pyRstripBy
  rw [← List.reverse_append, List.takeWhile_append_dropWhile, List.reverse_reverse]

theorem head?_pyStrip_not_ws {q : List Char} {c : Char}
    (h : (pyStrip q).head? = some c) : isPyWs c = false := by
  exact head?_dropWhile_not h

theorem pyRstripSemi_prefix (l : List Char) : ∃ r, l = pyRstripSemi l ++ r := by
  unfold pyRstripSemi
  exact pyRstripBy_prefix _ l

theorem head?_processed_not_ws {q : List Char} {c : Char}
    (h : (pyRstripSemi (pyStrip q)).head? = some c) : isPyWs c = false := by
  obtain ⟨r, hr⟩ := pyRstripSemi_prefix (pyStrip q)
  have h2 : (pyStrip q).head? = some c := by
    rw [hr]
    cases hpre : pyRstripSemi (pyStrip q) with
    | nil => rw [hpre] at h; simp at h
    | cons d ds => rw [hpre] at h; simpa using h
  exact head?_pyStrip_not_ws h2

theorem pyLstrip_lowerStr_processed (sql : List Char) :
    pyLstrip (lowerStr (pyRstripSemi (pyStrip sql))) = lowerStr (pyRstripSemi (pyStrip sql)) := by
  cases hs : pyRstripSemi (pyStrip sql) with
  | nil => rfl
  | cons c cs =>
    have hc : isPyWs c = false := head?_processed_not_ws (by rw [hs]; rfl)
    show List.dropWhile isPyWs (lowerStr (c :: cs)) = lowerStr (c :: cs)
    simp only [lowerStr, List.map_cons, List.dropWhile_cons, isPyWs_pyLower, hc]
    simp

theorem block_kw_eq_map : BLOCK_KW = CORE_KW.map (fun k => ' ' :: (k ++ [' '])) := by decide

theorem core_kw_ne_nil : ∀ kw ∈ CORE_KW, kw ≠ [] := by decide

/-- When `is_safe_sql` accepts, the keyword scan over the space-padded
lowercased processed statement found nothing. -/
theorem is_safe_sql_true_findBlocked (parse : SqlParse) (sql : List Char)
    (h : (is_safe_sql parse sql).1 = true) :
    findBlocked (' ' :: (lowerStr (pyRstripSemi (pyStrip sql)) ++ [' '])) = none := by
  unfold is_safe_sql at h
  split at h
  · simp at h
  · simp only [] at h
    split at h
    · split at h
      · simp at h
      · split at h
        · simp at h
        · split at h
          · split at h
            · simp at h
            · next heq => exact heq
          · simp at h
    · split at h
      · simp at h
      · split at h
        · split at h
          · simp at h
          · next heq =>
            rw [pyLstrip_lowerStr_processed] at heq
            exact heq
        · simp at h

/-- C1 (amended): a statement whose processed text (trimmed, trailing
semicolons removed, lowercased, space-padded) contains a denylisted keyword
delimited by spaces is always rejected; when it furthermore parses directly
to an allowed kind, the reason names the first space-delimited denylisted
keyword found. -/
theorem c1_theorem (parse : SqlParse) (sql : List Char)
    (hkw : ∃ kw ∈ BLOCK_KW,
      containsSub kw (' ' :: (lowerStr (pyRstripSemi (pyStrip sql)) ++ [' '])) = true) :
    (is_safe_sql parse sql).1 = false ∧
    (∀ k : SqlAst, pyStrip sql ≠ [] →
      startsWithL "explain ".data (pyLstrip (lowerStr (pyRstripSemi (pyStrip sql)))) = false →
      parse (pyRstripSemi (pyStrip sql)) = Except.ok k → allowedAst k = true →
      ∃ kw ∈ BLOCK_KW, is_safe_sql parse sql = (false, blockedMsg kw)) := by
  obtain ⟨kw0, hmem, hsub⟩ := hkw
  have hsome : ∃ kw,
      findBlocked (' ' :: (lowerStr (pyRstripSemi (pyStrip sql)) ++ [' '])) = some kw := by
    cases hfb : findBlocked (' ' :: (lowerStr (pyRstripSemi (pyStrip sql)) ++ [' '])) with
    | none =>
      exfalso
      rw [findBlocked, List.find?_eq_none] at hfb
      exact absurd hsub (by simpa using hfb kw0 hmem)
    | some kw => exact ⟨kw, rfl⟩
  constructor
  · cases hres : (is_safe_sql parse sql).1 with
    | false => rfl
    | true =>
      exfalso
      obtain ⟨kw, hfb⟩ := hsome
      rw [is_safe_sql_true_findBlocked parse sql hres] at hfb
      cases hfb
  · intro k hne hnexp hparse hkind
    obtain ⟨kw, hfb⟩ := hsome
    refine ⟨kw, List.mem_of_find?_eq_some hfb, ?_⟩
    have hnexp2 : startsWithL "explain ".data (lowerStr (pyRstripSemi (pyStrip sql))) = false := by
      rw [← pyLstrip_lowerStr_processed]
      exact hnexp
    unfold is_safe_sql
    rw [if_neg hne]
    simp only [hnexp2, Bool.false_eq_true, if_false, hparse, hkind, if_true,
      pyLstrip_lowerStr_processed, hfb]

/-- C1 counterexample: the claim demands rejection of every statement
containing a denylisted keyword as a standalone word regardless of
surrounding punctuation, but a keyword bounded by commas inside a select
statement passes the space-delimited scan and the statement is accepted. -/
theorem c1_counterexample :
    containsWB "delete".data (lowerStr "select 'a,delete,b' from t".data) = true ∧
    "delete".data ∈ CORE_KW ∧
    is_safe_sql parseStub "select 'a,delete,b' from t".data = (true, "OK".data) :=
  ⟨by decide, by decide, by decide⟩

/-- Witness for `c1_theorem` at a concrete rejected statement. -/
theorem c1_witness :
    (is_safe_sql parseStub "select 1; drop table x".data).1 = false :=
  (c1_theorem parseStub "select 1; drop table x".data
    ⟨" drop ".data, by decide, by decide⟩).1

/-- C2: a well-formed statement that parses to select/with, is not
explain-prefixed, and contains no denylisted keyword as a standalone word
is accepted. -/
theorem c2_theorem (parse : SqlParse) (sql : List Char) (k : SqlAst)
    (hne : pyStrip sql ≠ [])
    (hnexp : startsWithL "explain ".data
      (pyLstrip (lowerStr (pyRstripSemi (pyStrip sql)))) = false)
    (hparse : parse (pyRstripSemi (pyStrip sql)) = Except.ok k)
    (hkind : allowedAst k = true)
    (hnokw : ∀ kw ∈ CORE_KW, containsWB kw (lowerStr (pyRstripSemi (pyStrip sql))) = false) :
    is_safe_sql parse sql = (true, "OK".data) := by
  have hfb : findBlocked (' ' :: (lowerStr (pyRstripSemi (pyStrip sql)) ++ [' '])) = none := by
    rw [findBlocked, List.find?_eq_none]
    intro kw hkwmem
    rw [block_kw_eq_map] at hkwmem
    obtain ⟨core, hcore, rfl⟩ := List.mem_map.mp hkwmem
    intro hsub
    have hwb := containsWB_of_padded (core_kw_ne_nil core hcore) (by simpa using hsub)
    rw [hnokw core hcore] at hwb
    cases hwb
  have hnexp2 : startsWithL "explain ".data (lowerStr (pyRstripSemi (pyStrip sql))) = false := by
    rw [← pyLstrip_lowerStr_processed]
    exact hnexp
  unfold is_safe_sql
  rw [if_neg hne]
  simp only [hnexp2, Bool.false_eq_true, if_false, hparse, hkind, if_true,
    pyLstrip_lowerStr_processed, hfb]

/-- Witness for `c2_theorem` at a concrete accepted statement. -/
theorem c2_witness : is_safe_sql parseStub "SELECT x FROM t".data = (true, "OK".data) :=
  c2_theorem parseStub "SELECT x FROM t".data SqlAst.select (by decide) (by decide)
    (by rfl) (by decide) (by decide)

/-- C8 (amended): an input that is empty or whitespace-only is rejected with
reason "SQL vacío"; the input ";" is not caught by that check (the source
tests emptiness before removing the trailing terminator) and instead reaches
the parser, which fails on the empty remainder. -/
theorem c8_theorem :
    (∀ (parse : SqlParse) (sql : List Char), pyStrip sql = [] →
      is_safe_sql parse sql = (false, "SQL vacío".data)) ∧
    is_safe_sql parseStub ";".data = (false, "Parse error: No expression was parsed".data) := by
  constructor
  · intro parse sql h
    unfold is_safe_sql
    rw [if_pos h]
  · decide

/-- C8 counterexample: on the input ";" the validator reports a parse error,
not the "empty statement" reason the claim requires. -/
theorem c8_counterexample :
    is_safe_sql parseStub ";".data = (false, "Parse error: No expression was parsed".data) ∧
    ("Parse error: No expression was parsed".data : List Char) ≠ "SQL vacío".data :=
  ⟨by decide, by decide⟩

/-- Witness for `c8_theorem` at a whitespace-only input. -/
theorem c8_witness :
    pyStrip "   ".data = [] ∧
    is_safe_sql parseStub "   ".data = (false, "SQL vacío".data) :=
  ⟨by decide, c8_theorem.1 parseStub "   ".data (by decide)⟩

/-! ### First-occurrence characterization of `findSub`, for claim C3 -/

/-- `pat` occurs in `l` at index `i`. -/
def occursAt (pat l : List Char) (i : Nat) : Bool := startsWithL pat (l.drop i)

theorem findSub_some_first {pat l : List Char} {i : Nat} (h : findSub pat l = some i) :
    occursAt pat l i = true ∧ ∀ j, j < i → occursAt pat l j = false := by
  induction l generalizing i with
  | nil =>
    unfold findSub at h
    split at h
    · next hs =>
      cases h
      exact ⟨by simpa [occursAt] using hs, by intro j hj; omega⟩
    · cases h
  | cons c cs ih =>
    unfold findSub at h
    split at h
    · next hs =>
      cases h
      exact ⟨by simpa [occursAt] using hs, by intro j hj; omega⟩
    · next hs =>
      cases hfc : findSub pat cs with
      | none => rw [hfc] at h; cases h
      | some i' =>
        rw [hfc] at h
        simp only [Option.map_some', Option.some_inj] at h
        obtain ⟨ho, hfirst⟩ := ih hfc
        cases h
        constructor
        · simpa [occursAt, List.drop_succ_cons] using ho
        · intro j hj
          cases j with
          | zero => simpa [occursAt] using hs
          | succ j' => simpa [occursAt, List.drop_succ_cons] using hfirst j' (by omega)

theorem findSub_none_no_occur {pat l : List Char} (h : findSub pat l = none) :
    ∀ j, occursAt pat l j = false := by
  induction l with
  | nil =>
    unfold findSub at h
    split at h
    · cases h
    · next hs =>
      intro j
      simpa [occursAt] using hs
  | cons c cs ih =>
    unfold findSub at h
    split at h
    · cases h
    · next hs =>
      have h2 : findSub pat cs = none := by
        cases hfc : findSub pat cs with
        | none => rfl
        | some i' => rw [hfc] at h; cases h
      intro j
      cases j with
      | zero => simpa [occursAt] using hs
      | succ j' => simpa [occursAt, List.drop_succ_cons] using ih h2 j'

theorem findSub_eq_none_of_no_occur {pat l : List Char} (hpat : pat ≠ [])
    (h : ∀ j, j < l.length → occursAt pat l j = false) : findSub pat l = none := by
  cases hfs : findSub pat l with
  | none => rfl
  | some i =>
    exfalso
    obtain ⟨ho, -⟩ := findSub_some_first hfs
    have hi : i < l.length := by
      by_contra hge
      unfold occursAt at ho
      rw [List.drop_eq_nil_of_le (by omega)] at ho
      cases hp : pat with
      | nil => exact hpat hp
      | cons p ps => rw [hp] at ho; cases ho
    rw [h i hi] at ho
    cases ho

theorem findSub_eq_some_of_first {pat l : List Char} {i : Nat}
    (h1 : occursAt pat l i = true) (h2 : ∀ j, j < i → occursAt pat l j = false) :
    findSub pat l = some i := by
  cases hfs : findSub pat l with
  | none =>
    rw [findSub_none_no_occur hfs i] at h1
    cases h1
  | some i' =>
    obtain ⟨ho', hf'⟩ := findSub_some_first hfs
    rcases Nat.lt_trichotomy i i' with hlt | heq | hgt
    · rw [hf' i hlt] at h1; cases h1
    · rw [heq]
    · rw [h2 i' hgt] at ho'; cases ho'

/-- C3 (amended): for an explain-prefixed statement the source parses the
remainder starting at the LATER of the first occurrence of " select " and
the first occurrence of " with " in the lowercased text (each index is the
occurrence's first position; when only one keyword occurs its first
occurrence is used; when neither occurs the leading explain token alone is
dropped). -/
theorem c3_theorem (s low : List Char) :
    (∀ iS iW : Nat,
      (occursAt " select ".data low iS = true ∧
        ∀ j, j < iS → occursAt " select ".data low j = false) →
      (occursAt " with ".data low iW = true ∧
        ∀ j, j < iW → occursAt " with ".data low j = false) →
      explainInner s low = some (pyLstrip (s.drop (max iS iW)))) ∧
    (∀ iS : Nat,
      (occursAt " select ".data low iS = true ∧
        ∀ j, j < iS → occursAt " select ".data low j = false) →
      (∀ j, j < low.length → occursAt " with ".data low j = false) →
      explainInner s low = some (pyLstrip (s.drop iS))) ∧
    (∀ iW : Nat,
      (∀ j, j < low.length → occursAt " select ".data low j = false) →
      (occursAt " with ".data low iW = true ∧
        ∀ j, j < iW → occursAt " with ".data low j = false) →
      explainInner s low = some (pyLstrip (s.drop iW))) ∧
    ((∀ j, j < low.length → occursAt " select ".data low j = false) →
      (∀ j, j < low.length → occursAt " with ".data low j = false) →
      explainInner s low = splitRestPy s) := by
  refine ⟨?_, ?_, ?_, ?_⟩
  · rintro iS iW ⟨h1, h2⟩ ⟨h3, h4⟩
    have hS := findSub_eq_some_of_first h1 h2
    have hW := findSub_eq_some_of_first h3 h4
    simp only [explainInner, hS, hW, idxOrNeg]
    rw [← Nat.cast_max, if_neg (by omega)]
    rw [Int.toNat_natCast]
  · rintro iS ⟨h1, h2⟩ h3
    have hS := findSub_eq_some_of_first h1 h2
    have hW := findSub_eq_none_of_no_occur (by decide) h3
    simp only [explainInner, hS, hW, idxOrNeg]
    rw [max_eq_left (by omega), if_neg (by omega)]
    rw [Int.toNat_natCast]
  · rintro iW h1 ⟨h3, h4⟩
    have hS := findSub_eq_none_of_no_occur (by decide) h1
    have hW := findSub_eq_some_of_first h3 h4
    simp only [explainInner, hS, hW, idxOrNeg]
    rw [max_eq_right (by omega), if_neg (by omega)]
    rw [Int.toNat_natCast]
  · intro h1 h2
    have hS := findSub_eq_none_of_no_occur (by decide) h1
    have hW := findSub_eq_none_of_no_occur (by decide) h2
    simp only [explainInner, hS, hW, idxOrNeg]
    rw [max_self, if_pos rfl]

/-- C3 counterexample: on
`explain with t(c) as ( select 1 ) select * from t` the first read-only
keyword occurrence is " with " at index 7, but the source parses from the
later first occurrence of " select " (index 22, inside the parentheses),
yielding the unbalanced remainder `select 1 ) select * from t` that fails
to parse; under the spec's first-occurrence reading the statement is
accepted. -/
theorem c3_counterexample :
    explainInner "explain with t(c) as ( select 1 ) select * from t".data
        "explain with t(c) as ( select 1 ) select * from t".data ≠
      explainInnerSpecFirst "explain with t(c) as ( select 1 ) select * from t".data
        "explain with t(c) as ( select 1 ) select * from t".data ∧
    is_safe_sql parseStub "explain with t(c) as ( select 1 ) select * from t".data =
      (false, "Parse error (EXPLAIN): Expecting )".data) ∧
    is_safe_sql_specFirst parseStub "explain with t(c) as ( select 1 ) select * from t".data =
      (true, "OK".data) :=
  ⟨by decide, by decide, by decide⟩

/-- Witness for `c3_theorem` on a concrete explain-prefixed statement. -/
theorem c3_witness :
    explainInner "explain select 1".data "explain select 1".data =
      some (pyLstrip ("explain select 1".data.drop 7)) :=
  ( c3_theorem "explain select 1".data "explain select 1".data).2.1 7
    ⟨by decide, by decide⟩ (by decide)

/-! ### Embedding of db/explain_gate.py -/

/-- First-match association lookup, modelling a Python dict access (dict
keys are unique, so the first match is the match). -/
def dictGet (m : List (List Char × Option Int)) (k : List Char) : Option (Option Int) :=
  match m with
  | [] => none
  | (k', v) :: rest => if k' = k then some v else dictGet rest k

/-- `too_expensive` from db/explain_gate.py.  A plan summary is a mapping
from keys to values; the values `too_expensive` inspects are the numeric
cost figures (or None), so values are modelled as `Option Int` (the planner
reports costs as numbers; the error marker's message string is irrelevant
here, since this function never reads the "error" key). -/
def too_expensive (plan : List (List Char × Option Int)) : Bool × List Char :=
  if plan = [] ∨ dictGet plan "total_cost".data = none then (false, [])
  else
    let total : Int := ((dictGet plan "total_cost".data).getD none).getD 0
    if total ≠ 0 ∧ 5000000 < total then
      (true, "total_cost=".data ++ (toString total).data)
    else (false, [])

theorem too_expensive_of_absent {plan : List (List Char × Option Int)}
    (h : dictGet plan "total_cost".data = none) : too_expensive plan = (false, []) := by
  unfold too_expensive
  rw [if_pos (Or.inr h)]

theorem too_expensive_of_none {plan : List (List Char × Option Int)}
    (h : dictGet plan "total_cost".data = some none) : too_expensive plan = (false, []) := by
  have hplan : plan ≠ [] := by
    intro hp
    rw [hp] at h
    cases h
  unfold too_expensive
  rw [if_neg (by simp [hplan, h])]
  simp [h]

theorem too_expensive_of_some {plan : List (List Char × Option Int)} {v : Int}
    (h : dictGet plan "total_cost".data = some (some v)) :
    too_expensive plan =
      if 5000000 < v then (true, "total_cost=".data ++ (toString v).data)
      else (false, []) := by
  have hplan : plan ≠ [] := by
    intro hp
    rw [hp] at h
    cases h
  unfold too_expensive
  rw [if_neg (by simp [hplan, h])]
  simp only [h, Option.getD_some]
  by_cases hv : 5000000 < v
  · rw [if_pos ⟨by omega, hv⟩, if_pos hv]
  · rw [if_neg (by tauto), if_neg hv]

/-- C4: `too_expensive` blocks exactly when a usable total-cost figure
strictly greater than 5,000,000 is present, in which case the reason embeds
the value; any summary without such a figure (including the error-tagged
summary, which carries no "total_cost" key) is never blocked. -/
theorem c4_theorem :
    (∀ plan : List (List Char × Option Int),
      (too_expensive plan).1 = true ↔
        ∃ v : Int, dictGet plan "total_cost".data = some (some v) ∧ 5000000 < v) ∧
    (∀ (plan : List (List Char × Option Int)) (v : Int),
      dictGet plan "total_cost".data = some (some v) → 5000000 < v →
      too_expensive plan = (true, "total_cost=".data ++ (toString v).data)) ∧
    (∀ msg : Option Int, too_expensive [("error".data, msg)] = (false, [])) := by
  refine ⟨?_, ?_, ?_⟩
  · intro plan
    constructor
    · intro h
      cases hget : dictGet plan "total_cost".data with
      | none => rw [too_expensive_of_absent hget] at h; cases h
      | some v? =>
        cases v? with
        | none => rw [too_expensive_of_none hget] at h; cases h
        | some v =>
          rw [too_expensive_of_some hget] at h
          by_cases hv : 5000000 < v
          · exact ⟨v, rfl, hv⟩
          · rw [if_neg hv] at h; cases h
    · rintro ⟨v, hget, hv⟩
      rw [too_expensive_of_some hget, if_pos hv]
  · intro plan v hget hgt
    rw [too_expensive_of_some hget, if_pos hgt]
  · intro msg
    apply too_expensive_of_absent
    simp [dictGet, show ("error".data : List Char) ≠ "total_cost".data from by decide]

/-- Witness for `c4_theorem`, the spec's Scenario C: total cost 6,000,000 is
blocked and the reason embeds 6000000. -/
theorem c4_witness :
    too_expensive [("total_cost".data, some 6000000)] =
      (true, "total_cost=6000000".data) ∧
    containsSub "6000000".data "total_cost=6000000".data = true := by
  constructor
  · rw [c4_theorem.2.1 [("total_cost".data, some 6000000)] 6000000 (by decide) (by decide)]
    decide
  · decide

/-! ### Embedding of db/engine.py -/

/-- The row-cap transformation of `run_query_secure`: if the statement text
contains no "limit" substring (case-insensitive), append
` LIMIT {limit_default};` to the statement stripped of trailing
semicolons. -/
def limited_sql (sql : List Char) (cap : Nat) : List Char :=
  if containsSub "limit".data (lowerStr sql) then sql
  else pyRstripSemi sql ++ " LIMIT ".data ++ (toString cap).data ++ ";".data

/-- `run_query_secure` from db/engine.py over an abstract database session.
The session settings (timeouts, search_path) do not influence which rows the
final `conn.execute` returns, so the session is abstracted to the function
from statement text to rows. -/
def run_query_secure {α : Type} (runStmt : List Char → List α)
    (sql : List Char) (cap : Nat) : List α :=
  runStmt (limited_sql sql cap)

/-- C7: when the statement has no row-limiting clause (case-insensitive
substring check), the executed statement is the original with a
` LIMIT cap;` clause appended, so a database that honours a trailing LIMIT
clause returns at most `cap` rows (Scenario E with cap = 500). -/
theorem c7_theorem {α : Type} (runStmt : List Char → List α)
    (hdb : ∀ (s : List Char) (n : Nat),
      (∃ p, s = p ++ " LIMIT ".data ++ (toString n).data ++ ";".data) →
      (runStmt s).length ≤ n)
    (sql : List Char) (cap : Nat)
    (hnolimit : containsSub "limit".data (lowerStr sql) = false) :
    run_query_secure runStmt sql cap =
      runStmt (pyRstripSemi sql ++ " LIMIT ".data ++ (toString cap).data ++ ";".data) ∧
    (run_query_secure runStmt sql cap).length ≤ cap := by
  have hls : limited_sql sql cap =
      pyRstripSemi sql ++ " LIMIT ".data ++ (toString cap).data ++ ";".data := by
    unfold limited_sql
    rw [if_neg (by simp [hnolimit])]
  refine ⟨by unfold run_query_secure; rw [hls], ?_⟩
  unfold run_query_secure
  rw [hls]
  exact hdb _ cap ⟨pyRstripSemi sql, by simp⟩

/-- Witness for `c7_theorem` at a concrete statement and cap 500. -/
theorem c7_witness :
    run_query_secure (fun _ => ([] : List Nat)) "select * from t".data 500 =
      (fun _ => ([] : List Nat))
        (pyRstripSemi "select * from t".data ++ " LIMIT ".data ++
          (toString 500).data ++ ";".data) ∧
    (run_query_secure (fun _ => ([] : List Nat)) "select * from t".data 500).length ≤ 500 :=
  c7_theorem (fun _ => []) (fun _ _ _ => by simp) "select * from t".data 500 (by decide)

/-! ### Embedding of db/schema_cache.py -/

structure GeometryInfo where
  column : List Char
  srid : Option Int
  gtype : Option (List Char)
deriving DecidableEq

structure ColumnInfo where
  name : List Char
  data_type : List Char
  is_nullable : Bool
  is_pk : Bool
deriving DecidableEq

structure IndexInfo where
  name : List Char
  method : List Char
  columns : List (List Char)
deriving DecidableEq

structure TableInfo where
  schema : List Char
  table : List Char
  columns : List ColumnInfo
  pk_cols : List (List Char)
  geom : Option GeometryInfo
  indexes : List IndexInfo
  fks : List (List (List Char) × List Char × List (List Char))
deriving DecidableEq

def PREFERRED_GEOM_ORDER : List (List Char) :=
  ["geometria".data, "geometry".data, "geom".data, "the_geom".data]

/-- `best_geom_column` from db/schema_cache.py. -/
def best_geom_column (ti : TableInfo) : Option (List Char) :=
  match ti.geom with
  | some g => some g.column
  | none =>
    let names := ti.columns.map (fun c => c.name)
    PREFERRED_GEOM_ORDER.find? (fun pref => names.contains pref)

/-- `preferred_geom` from db/schema_cache.py. -/
def preferred_geom (ti : TableInfo) : Option (List Char) := best_geom_column ti

def ID_NAME_PREFS : List (List Char) :=
  ["objectid".data, "gid".data, "id".data, "pk".data, "codigo".data,
   "cod".data, "cod_id".data]

/-- `suggest_id_column` from db/schema_cache.py. -/
def suggest_id_column (ti : TableInfo) : Option (List Char) :=
  match ti.pk_cols with
  | p :: _ => some p
  | [] =>
    match ID_NAME_PREFS.findSome? (fun name =>
        (ti.columns.find? (fun c => lowerStr c.name == name)).map (fun c => c.name)) with
    | some n => some n
    | none =>
      ((ti.columns.filter (fun c =>
          containsSub "int".data c.data_type && !c.is_nullable)).map
        (fun c => c.name)).head?

/-- Python's `list(set(xs))`: a duplicate-free listing of the elements of
`xs` in an unspecified order.  `load_schema_cache` computes
`pk = set(_load_pk(s, t))` and stores `pk_cols = list(pk)`, so a
multi-column primary key's declared order is not preserved. -/
def IsSetListing (xs ys : List (List Char)) : Prop :=
  ys.Nodup ∧ (∀ a ∈ xs, a ∈ ys) ∧ (∀ a ∈ ys, a ∈ xs)

instance (xs ys : List (List Char)) : Decidable (IsSetListing xs ys) := by
  unfold IsSetListing
  infer_instance

/-- Fixture: a table whose primary key is declared as (b, a); the set
listing stored by the loader may order it as [a, b]. -/
def tiPkPair : TableInfo :=
  { schema := "s".data, table := "t".data,
    columns := [⟨"b".data, "integer".data, false, true⟩,
                ⟨"a".data, "integer".data, false, true⟩],
    pk_cols := ["a".data, "b".data], geom := none, indexes := [], fks := [] }

/-- Fixture: a table with no primary key, no preferred identifier name and a
single non-nullable column of type interval. -/
def tiIntervalOnly : TableInfo :=
  { schema := "s".data, table := "t2".data,
    columns := [⟨"dur".data, "interval".data, false, false⟩],
    pk_cols := [], geom := none, indexes := [], fks := [] }

/-- C9 counterexample: (i) for the primary key declared (b, a), the loader's
set listing may be [a, b], and `suggest_id_column` then returns a, not the
first declared column b; (ii) with no primary key and no preferred name, a
non-nullable column of type interval (not an integer type, but its type name
contains "int") is returned instead of none. -/
theorem c9_counterexample :
    IsSetListing ["b".data, "a".data] tiPkPair.pk_cols ∧
    suggest_id_column tiPkPair = some "a".data ∧
    (["b".data, "a".data] : List (List Char)).head? = some "b".data ∧
    ("a".data : List Char) ≠ "b".data ∧
    suggest_id_column tiIntervalOnly = some "dur".data ∧
    tiIntervalOnly.columns.map (fun c => c.data_type) = ["interval".data] :=
  ⟨by decide, by decide, by decide, by decide, by decide, by decide⟩

/-- C9 (amended): with a declared primary key the suggestion is some column
of that key (the head of the unordered set listing; the declared first
column exactly when the key has a single column); with no primary key the
suggestion is the first column whose lowercased name equals a preference
name, taking the earliest preference name with a match and, for it, the
first matching column in column order; failing that, the fallback is the
first non-nullable column whose declared type name contains the substring
"int". -/
theorem c9_theorem :
    (∀ (declared : List (List Char)) (ti : TableInfo),
      IsSetListing declared ti.pk_cols → declared ≠ [] →
      ∃ c, suggest_id_column ti = some c ∧ c ∈ declared) ∧
    (∀ (c0 : List Char) (ti : TableInfo),
      IsSetListing [c0] ti.pk_cols → suggest_id_column ti = some c0) ∧
    (∀ (ti : TableInfo) (name : List Char) (pre post : List (List Char)) (c : ColumnInfo),
      ti.pk_cols = [] →
      ID_NAME_PREFS = pre ++ name :: post →
      (∀ n' ∈ pre, ∀ c' ∈ ti.columns, ¬(lowerStr c'.name == n') = true) →
      ti.columns.find? (fun col => lowerStr col.name == name) = some c →
      suggest_id_column ti = some c.name) ∧
    (∀ ti : TableInfo, ti.pk_cols = [] →
      (∀ name ∈ ID_NAME_PREFS, ∀ c ∈ ti.columns, ¬(lowerStr c.name == name) = true) →
      suggest_id_column ti =
        ((ti.columns.filter (fun c =>
            containsSub "int".data c.data_type && !c.is_nullable)).map
          (fun c => c.name)).head?) := by
  refine ⟨?_, ?_, ?_, ?_⟩
  · rintro declared ti ⟨-, hin, hback⟩ hne
    cases hd : declared with
    | nil => exact absurd hd hne
    | cons d ds =>
      have hdmem : d ∈ ti.pk_cols := hin d (by rw [hd]; exact List.mem_cons_self d ds)
      cases hpk : ti.pk_cols with
      | nil => rw [hpk] at hdmem; cases hdmem
      | cons p ps =>
        refine ⟨p, ?_, ?_⟩
        · unfold suggest_id_column
          rw [hpk]
        · rw [← hd]
          exact hback p (by rw [hpk]; exact List.mem_cons_self p ps)
  · rintro c0 ti ⟨-, hin, hback⟩
    have hc0 : c0 ∈ ti.pk_cols := hin c0 (List.mem_cons_self c0 [])
    cases hpk : ti.pk_cols with
    | nil => rw [hpk] at hc0; cases hc0
    | cons p ps =>
      have hp : p = c0 := by
        have := hback p (by rw [hpk]; exact List.mem_cons_self p ps)
        simpa using this
      unfold suggest_id_column
      rw [hpk, hp]
  · intro ti name pre post c hpk hsplit hpre hfind
    unfold suggest_id_column
    rw [hpk]
    have hpreNone : pre.findSome? (fun n =>
        (ti.columns.find? (fun col => lowerStr col.name == n)).map (fun col => col.name)) =
        none := by
      rw [List.findSome?_eq_none_iff]
      intro n' hn'
      have hfn : ti.columns.find? (fun col => lowerStr col.name == n') = none := by
        rw [List.find?_eq_none]
        intro col hcol
        exact hpre n' hn' col hcol
      rw [hfn]
      rfl
    rw [hsplit, List.findSome?_append, hpreNone, List.findSome?_cons, hfind]
    simp
  · intro ti hpk hnames
    unfold suggest_id_column
    rw [hpk]
    have hscan : ID_NAME_PREFS.findSome? (fun name =>
        (ti.columns.find? (fun c => lowerStr c.name == name)).map (fun c => c.name)) = none := by
      rw [List.findSome?_eq_none_iff]
      intro name hname
      have : ti.columns.find? (fun c => lowerStr c.name == name) = none := by
        rw [List.find?_eq_none]
        intro c hc
        exact hnames name hname c hc
      rw [this]
      rfl
    rw [hscan]

/-- Witness for `c9_theorem`: a table with the single-column primary key
objectid, and a table without a primary key whose column Gid matches the
preference name gid case-insensitively (objectid, the earlier preference
name, matches no column). -/
theorem c9_witness :
    suggest_id_column
      { schema := "datos_maestros".data, table := "dpa_region_subdere".data,
        columns := [⟨"objectid".data, "integer".data, false, true⟩],
        pk_cols := ["objectid".data], geom := none, indexes := [], fks := [] } =
      some "objectid".data ∧
    suggest_id_column
      { schema := "s".data, table := "t3".data,
        columns := [⟨"nombre".data, "text".data, true, false⟩,
                    ⟨"Gid".data, "integer".data, false, false⟩],
        pk_cols := [], geom := none, indexes := [], fks := [] } =
      some "Gid".data :=
  ⟨c9_theorem.2.1 "objectid".data _ (by decide),
   c9_theorem.2.2.1
     { schema := "s".data, table := "t3".data,
       columns := [⟨"nombre".data, "text".data, true, false⟩,
                   ⟨"Gid".data, "integer".data, false, false⟩],
       pk_cols := [], geom := none, indexes := [], fks := [] }
     "gid".data ["objectid".data]
     ["id".data, "pk".data, "codigo".data, "cod".data, "cod_id".data]
     ⟨"Gid".data, "integer".data, false, false⟩
     rfl (by decide) (by decide) (by decide)⟩

/-! ### Embedding of db/introspect.py (reference extraction)

The scanners below model the source's fixed regular expressions by direct
left-to-right matching with the same greedy/backtracking behaviour; the
character classes involved (`\w`, `[a-zA-Z0-9_]`, `\s`) are disjoint, so the
only backtracking the patterns can perform is modelled explicitly where it
can occur.  Scanning carries the previous character for the word-boundary
assertions (only its word-character status matters), and a fuel argument
bounded by the text length for termination. -/

/-- Case-insensitive keyword with a word boundary on both sides
(`\bkw\b`); returns the remainder after the keyword. -/
def matchKwCIB (kw : List Char) (prev : Option Char) (l : List Char) :
    Option (List Char) :=
  if wbBoundary prev && startsWithCIL kw l then
    match l.drop kw.length with
    | [] => some []
    | d :: rest => if isWordChar d then none else some (d :: rest)
  else none

/-- `DOT_REF_RE = \b([a-zA-Z0-9_]+)\.([a-zA-Z0-9_]+)\b`, findall. -/
def dotRefsAux : Nat → Option Char → List Char → List (List Char × List Char)
  | 0, _, _ => []
  | _ + 1, _, [] => []
  | fuel + 1, prev, c :: cs =>
    if wbBoundary prev && isWordChar c then
      let r1 := takeRunBy isWordChar (c :: cs)
      match r1.2 with
      | '.' :: c2 :: cs2 =>
        if isWordChar c2 then
          let r2 := takeRunBy isWordChar (c2 :: cs2)
          (r1.1, r2.1) :: dotRefsAux fuel (some 'a') r2.2
        else dotRefsAux fuel (some c) cs
      | _ => dotRefsAux fuel (some c) cs
    else dotRefsAux fuel (some c) cs

def dotRefs (text : List Char) : List (List Char × List Char) :=
  dotRefsAux (text.length + 1) none text

/-- The tail `(?:\btabla\b|\btable\b)\s+([a-zA-Z0-9_]+)` of PHRASE_REF_RE. -/
def phraseTailAt (prev : Option Char) (l : List Char) :
    Option (List Char × List Char) :=
  let kwres := match matchKwCIB "tabla".data prev l with
    | some r => some r
    | none => matchKwCIB "table".data prev l
  match kwres with
  | none => none
  | some rest =>
    let ws := takeRunBy isPyWs rest
    match ws.1 with
    | [] => none
    | _ :: _ =>
      let g2 := takeRunBy isWordChar ws.2
      match g2.1 with
      | [] => none
      | _ :: _ => some (g2.1, g2.2)

/-- The lazy `.*?` search for the phrase tail (DOTALL, so any character may
be skipped). -/
def phraseSearchTail : Nat → Option Char → List Char → Option (List Char × List Char)
  | 0, _, _ => none
  | _ + 1, _, [] => none
  | fuel + 1, prev, c :: cs =>
    match phraseTailAt prev (c :: cs) with
    | some r => some r
    | none => phraseSearchTail fuel (some c) cs

/-- One attempt of PHRASE_REF_RE at the current position. -/
def phraseAt (prev : Option Char) (l : List Char) :
    Option ((List Char × List Char) × List Char) :=
  let kwres := match matchKwCIB "esquema".data prev l with
    | some r => some r
    | none => matchKwCIB "schema".data prev l
  match kwres with
  | none => none
  | some rest =>
    let ws := takeRunBy isPyWs rest
    match ws.1 with
    | [] => none
    | _ :: _ =>
      let g1 := takeRunBy isWordChar ws.2
      match g1.1 with
      | [] => none
      | _ :: _ =>
        match phraseSearchTail (g1.2.length + 1) (some 'a') g1.2 with
        | none => none
        | some (g2, rest2) => some ((g1.1, g2), rest2)

def phraseRefsAux : Nat → Option Char → List Char → List (List Char × List Char)
  | 0, _, _ => []
  | _ + 1, _, [] => []
  | fuel + 1, prev, c :: cs =>
    match phraseAt prev (c :: cs) with
    | some (st, rest) => st :: phraseRefsAux fuel (some 'a') rest
    | none => phraseRefsAux fuel (some c) cs

def phraseRefs (text : List Char) : List (List Char × List Char) :=
  phraseRefsAux (text.length + 1) none text

/-- De-duplication preserving first occurrence (the source's seen-set). -/
def dedupPairs (l : List (List Char × List Char)) : List (List Char × List Char) :=
  l.foldl (fun acc st => if st ∈ acc then acc else acc ++ [st]) []

/-- `find_table_refs` from db/introspect.py. -/
def find_table_refs (text : List Char) : List (List Char × List Char) :=
  dedupPairs (dotRefs text ++ phraseRefs text)

example : find_table_refs "SELECT a.id, a.geom FROM datos_maestros.dpa_region_subdere a".data =
    [("a".data, "id".data), ("a".data, "geom".data),
     ("datos_maestros".data, "dpa_region_subdere".data)] := by decide
example : find_table_refs "del esquema datos_maestros la tabla comunas".data =
    [("datos_maestros".data, "comunas".data)] := by decide

/-! ### Embedding of db/sql_fixup.py -/

/-- The process-wide schema cache, passed explicitly: `get_table`. -/
abbrev Catalog := List Char → List Char → Option TableInfo

/-- `_id_for` from db/sql_fixup.py. -/
def idFor (cat : Catalog) (s t : List Char) : Option (List Char) :=
  match cat s t with
  | some ti => suggest_id_column ti
  | none => none

/-- `_geom_for` from db/sql_fixup.py. -/
def geomFor (cat : Catalog) (s t : List Char) : Option (List Char) :=
  match cat s t with
  | some ti => preferred_geom ti
  | none => none

/-- `_srid_for` from db/sql_fixup.py. -/
def sridFor (cat : Catalog) (s t : List Char) : Option Int :=
  match cat s t with
  | some ti =>
    match ti.geom with
    | some g => g.srid
    | none => none
  | none => none

/-- `_mentions_metric_units` from db/sql_fixup.py. -/
def mentions_metric_units (text : List Char) : Bool :=
  let q := lowerStr text
  [" metro".data, " metros".data, " m ".data, " km".data, "kilometro".data,
   "kilómetro".data, "kilometros".data, "kilómetros".data].any
    (fun w => containsSub w q)

/-- `_mentions_hectares` from db/sql_fixup.py. -/
def mentions_hectares (text : List Char) : Bool :=
  let q := lowerStr text
  ["hectarea".data, "hectárea".data, "hectareas".data, "hectáreas".data,
   " ha".data, " en ha".data, " en hectá".data].any (fun w => containsSub w q)

/-- One attempt of ALIAS_FROM_RE / ALIAS_JOIN_RE at the current position:
`\b{kw}\s+([a-zA-Z0-9_]+)\.([a-zA-Z0-9_]+)\s+(?:as\s+)?([a-zA-Z_][a-zA-Z0-9_]*)`,
IGNORECASE.  Returns ((schema, table, alias), remainder). -/
def aliasMatchAt (kw : List Char) (prev : Option Char) (l : List Char) :
    Option ((List Char × List Char × List Char) × List Char) :=
  if wbBoundary prev && startsWithCIL kw l then
    let ws1 := takeRunBy isPyWs (l.drop kw.length)
    match ws1.1 with
    | [] => none
    | _ :: _ =>
      let g1 := takeRunBy isWordChar ws1.2
      match g1.1 with
      | [] => none
      | _ :: _ =>
        match g1.2 with
        | '.' :: afterDot =>
          let g2 := takeRunBy isWordChar afterDot
          match g2.1 with
          | [] => none
          | _ :: _ =>
            let ws2 := takeRunBy isPyWs g2.2
            match ws2.1 with
            | [] => none
            | _ :: _ =>
              let tryAs : Option (List Char × List Char) :=
                if startsWithCIL "as".data ws2.2 then
                  let ws3 := takeRunBy isPyWs (ws2.2.drop 2)
                  match ws3.1 with
                  | [] => none
                  | _ :: _ =>
                    match ws3.2 with
                    | d :: _ =>
                      if isIdentStart d then
                        let g3 := takeRunBy isWordChar ws3.2
                        some (g3.1, g3.2)
                      else none
                    | [] => none
                else none
              match tryAs with
              | some (g3, rest) => some ((g1.1, g2.1, g3), rest)
              | none =>
                match ws2.2 with
                | d :: _ =>
                  if isIdentStart d then
                    let g3 := takeRunBy isWordChar ws2.2
                    some ((g1.1, g2.1, g3.1), g3.2)
                  else none
                | [] => none
        | _ => none
  else none

def aliasMatchesAux (kw : List Char) :
    Nat → Option Char → List Char → List (List Char × List Char × List Char)
  | 0, _, _ => []
  | _ + 1, _, [] => []
  | fuel + 1, prev, c :: cs =>
    match aliasMatchAt kw prev (c :: cs) with
    | some (g, rest) => g :: aliasMatchesAux kw fuel (some 'a') rest
    | none => aliasMatchesAux kw fuel (some c) cs

/-- `finditer` for an alias pattern. -/
def aliasMatches (kw text : List Char) : List (List Char × List Char × List Char) :=
  aliasMatchesAux kw (text.length + 1) none text

/-- Association list with Python-dict update semantics: replacing a present
key keeps its position, a new key is appended. -/
def dictInsertA (m : List (List Char × (List Char × List Char))) (k : List Char)
    (v : List Char × List Char) : List (List Char × (List Char × List Char)) :=
  match m with
  | [] => [(k, v)]
  | (k', v') :: rest => if k' = k then (k, v) :: rest else (k', v') :: dictInsertA rest k v

abbrev SimpleMap := List (List Char × (List Char × List Char))

def simpleGet (m : SimpleMap) (k : List Char) : Option (List Char × List Char) :=
  match m with
  | [] => none
  | (k', v) :: rest => if k' = k then some v else simpleGet rest k

/-- `_collect_aliases` from db/sql_fixup.py: FROM matches first, then JOIN
matches, into one dict (later writers overwrite). -/
def collect_aliases (sql : List Char) : SimpleMap :=
  (aliasMatches "from".data sql ++ aliasMatches "join".data sql).foldl
    (fun m g => dictInsertA m g.2.2 (g.1, g.2.1)) []

/-- The alias of the first ALIAS_FROM_RE match (`first_from_alias`). -/
def first_from_alias (sql : List Char) : Option (List Char) :=
  match aliasMatches "from".data sql with
  | [] => none
  | g :: _ => some g.2.2

example : collect_aliases "SELECT a.id FROM datos_maestros.dpa_region_subdere a JOIN s.t AS b".data =
    [("a".data, ("datos_maestros".data, "dpa_region_subdere".data)),
     ("b".data, ("s".data, "t".data))] := by decide

/-- Per-table metadata the source precomputes: the srid is stored as the
string `str(srid or "")`. -/
structure MetaEntry where
  id : Option (List Char)
  geom : Option (List Char)
  srid : List Char
deriving DecidableEq

abbrev MetaMap := List ((List Char × List Char) × MetaEntry)

def metaGet (m : MetaMap) (k : List Char × List Char) : Option MetaEntry :=
  match m with
  | [] => none
  | (k', v) :: rest => if k' = k then some v else metaGet rest k

def sridStr (o : Option Int) : List Char :=
  match o with
  | some n => if n = 0 then [] else (toString n).data
  | none => []

def countTable (refs : List (List Char × List Char)) (t : List Char) : Nat :=
  (refs.filter (fun r => r.2 = t)).length

/-- `_build_table_meta` from db/sql_fixup.py.  The source accumulates the
references in a Python set and then iterates it; the iteration order of that
set is unspecified, modelled here as first-insertion order of the
de-duplicated reference list. -/
def buildMetaStep (cat : Catalog) (refs : List (List Char × List Char))
    (acc : MetaMap × SimpleMap) (r : List Char × List Char) : MetaMap × SimpleMap :=
  match cat r.1 r.2 with
  | none => acc
  | some _ =>
    let entry : MetaEntry :=
      { id := idFor cat r.1 r.2, geom := geomFor cat r.1 r.2,
        srid := sridStr (sridFor cat r.1 r.2) }
    (acc.1 ++ [(r, entry)],
     if countTable refs r.2 = 1 then dictInsertA acc.2 r.2 r else acc.2)

def build_table_meta (cat : Catalog) (question sql : List Char) :
    MetaMap × SimpleMap :=
  let refs := dedupPairs (find_table_refs question ++ find_table_refs sql)
  refs.foldl (buildMetaStep cat refs) ([], [])

/-! ### The identifier/geometry substitutions (rewrite passes 2 to 4) -/

/-- Python `x or y` on optional strings (empty string is falsy). -/
def pyOrOpt (a b : Option (List Char)) : Option (List Char) :=
  match a with
  | some s => if s = [] then b else some s
  | none => b

/-- Occurrence test for `\b{x}\.id\b` (case-sensitive). -/
def hasIdOccAux (x : List Char) : Nat → Option Char → List Char → Bool
  | 0, _, _ => false
  | _ + 1, _, [] => false
  | fuel + 1, prev, c :: cs =>
    let pat := x ++ ".id".data
    (wbBoundary prev && startsWithL pat (c :: cs) && wbAfterOk pat (c :: cs)) ||
    hasIdOccAux x fuel (some c) cs

def hasIdOcc (x text : List Char) : Bool := hasIdOccAux x (text.length + 1) none text

/-- `re.sub` for `\b({x})\.id\b` with replacement `\1.{hint}` (the match is
case-sensitive, so the matched group equals `x`). -/
def subIdOccAux (x hint : List Char) : Nat → Option Char → List Char → List Char
  | 0, _, l => l
  | _ + 1, _, [] => []
  | fuel + 1, prev, c :: cs =>
    let pat := x ++ ".id".data
    if wbBoundary prev && startsWithL pat (c :: cs) && wbAfterOk pat (c :: cs) then
      x ++ ".".data ++ hint ++ subIdOccAux x hint fuel (some 'd') ((c :: cs).drop pat.length)
    else c :: subIdOccAux x hint fuel (some c) cs

def subIdOcc (x hint text : List Char) : List Char :=
  subIdOccAux x hint (text.length + 1) none text

/-- The alternation `(geom|geometry|geometria)\b` (case-insensitive), tried
in the source's order; returns the matched length. -/
def altMatch (l : List Char) : Option Nat :=
  ["geom".data, "geometry".data, "geometria".data].findSome? (fun alt =>
    if startsWithCIL alt l then
      match l.drop alt.length with
      | [] => some alt.length
      | d :: _ => if isWordChar d then none else some alt.length
    else none)

/-- Occurrence test for `\b{x}\.(geom|geometry|geometria)\b`, IGNORECASE. -/
def hasGeomOccAux (x : List Char) : Nat → Option Char → List Char → Bool
  | 0, _, _ => false
  | _ + 1, _, [] => false
  | fuel + 1, prev, c :: cs =>
    (wbBoundary prev && startsWithCIL (x ++ ".".data) (c :: cs) &&
      (altMatch ((c :: cs).drop (x.length + 1))).isSome) ||
    hasGeomOccAux x fuel (some c) cs

def hasGeomOcc (x text : List Char) : Bool := hasGeomOccAux x (text.length + 1) none text

/-- `re.sub` for `\b({x})\.(geom|geometry|geometria)\b` with replacement
`\1.{hint}`: the matched first group (original case) is kept. -/
def subGeomKeepAux (x hint : List Char) : Nat → Option Char → List Char → List Char
  | 0, _, l => l
  | _ + 1, _, [] => []
  | fuel + 1, prev, c :: cs =>
    let l := c :: cs
    if wbBoundary prev && startsWithCIL (x ++ ".".data) l then
      match altMatch (l.drop (x.length + 1)) with
      | some n =>
        l.take x.length ++ ".".data ++ hint ++
          subGeomKeepAux x hint fuel (some 'a') (l.drop (x.length + 1 + n))
      | none => c :: subGeomKeepAux x hint fuel (some c) cs
    else c :: subGeomKeepAux x hint fuel (some c) cs

def subGeomKeep (x hint text : List Char) : List Char :=
  subGeomKeepAux x hint (text.length + 1) none text

/-- `re.sub` for `\b{x}\.(geom|geometry|geometria)\b` with a literal
replacement (passes 3 and 4 substitute the canonical-case reference). -/
def subGeomLitAux (x repl : List Char) : Nat → Option Char → List Char → List Char
  | 0, _, l => l
  | _ + 1, _, [] => []
  | fuel + 1, prev, c :: cs =>
    let l := c :: cs
    if wbBoundary prev && startsWithCIL (x ++ ".".data) l then
      match altMatch (l.drop (x.length + 1)) with
      | some n => repl ++ subGeomLitAux x repl fuel (some 'a') (l.drop (x.length + 1 + n))
      | none => c :: subGeomLitAux x repl fuel (some c) cs
    else c :: subGeomLitAux x repl fuel (some c) cs

def subGeomLit (x repl text : List Char) : List Char :=
  subGeomLitAux x repl (text.length + 1) none text

/-- Pass 2 of `fix_sql`, one alias: `a.id` / `a.geom` substitution driven by
the catalog hints. -/
def aliasSubstStep (cat : Catalog) (tableMeta : MetaMap)
    (st : List Char × List (List Char))
    (entry : List Char × (List Char × List Char)) : List Char × List (List Char) :=
  let al := entry.1
  let sch := entry.2.1
  let tab := entry.2.2
  let idHint := pyOrOpt
    (match metaGet tableMeta (sch, tab) with
     | some m => m.id
     | none => none)
    (idFor cat sch tab)
  let geomHint := pyOrOpt
    (match metaGet tableMeta (sch, tab) with
     | some m => m.geom
     | none => none)
    (geomFor cat sch tab)
  let st1 :=
    match idHint with
    | some h =>
      if h ≠ [] ∧ hasIdOcc al st.1 = true then
        (subIdOcc al h st.1,
         st.2 ++ [al ++ ".id -> ".data ++ al ++ ".".data ++ h])
      else st
    | none => st
  match geomHint with
  | some h =>
    if h ≠ [] ∧ hasGeomOcc al st1.1 = true then
      (subGeomKeep al h st1.1,
       st1.2 ++ [al ++ ".geom -> ".data ++ al ++ ".".data ++ h])
    else st1
  | none => st1

/-- Pass 3 of `fix_sql`, one fully-qualified reference. -/
def qualSubstStep (st : List Char × List (List Char))
    (entry : (List Char × List Char) × MetaEntry) : List Char × List (List Char) :=
  let x := entry.1.1 ++ ".".data ++ entry.1.2
  let st1 :=
    match entry.2.id with
    | some h =>
      if h ≠ [] ∧ hasIdOcc x st.1 = true then
        (subIdOcc x h st.1, st.2 ++ [x ++ ".id -> ".data ++ x ++ ".".data ++ h])
      else st
    | none => st
  match entry.2.geom with
  | some h =>
    if h ≠ [] ∧ hasGeomOcc x st1.1 = true then
      (subGeomLit x (x ++ ".".data ++ h) st1.1,
       st1.2 ++ [x ++ ".geom -> ".data ++ x ++ ".".data ++ h])
    else st1
  | none => st1

/-- Pass 4 of `fix_sql`, one unambiguous bare table name. -/
def simpleSubstStep (tableMeta : MetaMap) (st : List Char × List (List Char))
    (entry : List Char × (List Char × List Char)) : List Char × List (List Char) :=
  let tbl := entry.1
  let m := metaGet tableMeta entry.2
  let idHint := match m with | some e => e.id | none => none
  let geomHint := match m with | some e => e.geom | none => none
  let st1 :=
    match idHint with
    | some h =>
      if h ≠ [] ∧ hasIdOcc tbl st.1 = true then
        (subIdOcc tbl h st.1, st.2 ++ [tbl ++ ".id -> ".data ++ tbl ++ ".".data ++ h])
      else st
    | none => st
  match geomHint with
  | some h =>
    if h ≠ [] ∧ hasGeomOcc tbl st1.1 = true then
      (subGeomLit tbl (tbl ++ ".".data ++ h) st1.1,
       st1.2 ++ [tbl ++ ".geom -> ".data ++ tbl ++ ".".data ++ h])
    else st1
  | none => st1

/-! ### SRID harmonization and hectare conversion (rewrite passes 6 and 7) -/

/-- `^([a-zA-Z_][a-zA-Z0-9_]*)\.([a-zA-Z_][a-zA-Z0-9_]*)$`, full match. -/
def fullIdentPair (e : List Char) : Option (List Char × List Char) :=
  match e with
  | c :: _ =>
    if isIdentStart c then
      let g1 := takeRunBy isWordChar e
      match g1.2 with
      | '.' :: rest =>
        match rest with
        | d :: _ =>
          if isIdentStart d then
            let g2 := takeRunBy isWordChar rest
            if g2.2 = [] then some (g1.1, g2.1) else none
          else none
        | [] => none
      | _ => none
    else none
  | [] => none

/-- `QUAL_COL_RE.match`: `\b([a-zA-Z0-9_]+)\.([a-zA-Z0-9_]+)\.([a-zA-Z_][a-zA-Z0-9_]*)\b`
anchored at the start (trailing text allowed). -/
def qualColPrefix (e : List Char) : Option (List Char × List Char × List Char) :=
  match e with
  | c :: _ =>
    if isWordChar c then
      let g1 := takeRunBy isWordChar e
      match g1.2 with
      | '.' :: r1 =>
        match r1 with
        | d :: _ =>
          if isWordChar d then
            let g2 := takeRunBy isWordChar r1
            match g2.2 with
            | '.' :: r2 =>
              match r2 with
              | f :: _ =>
                if isIdentStart f then
                  let g3 := takeRunBy isWordChar r2
                  some (g1.1, g2.1, g3.1)
                else none
              | [] => none
            | _ => none
          else none
        | [] => none
      | _ => none
    else none
  | [] => none

/-- `_resolve_expr` from db/sql_fixup.py. -/
def resolve_expr (aliasMap simpleMap : SimpleMap) (e0 : List Char) :
    Option (List Char × List Char × Option (List Char) × List Char) :=
  let e := pyStrip e0
  match fullIdentPair e with
  | some (a, col) =>
    match simpleGet aliasMap a with
    | some st => some (st.1, st.2, some a, col)
    | none =>
      match simpleGet simpleMap a with
      | some st => some (st.1, st.2, none, col)
      | none => none
  | none =>
    match qualColPrefix e with
    | some (s, t, col) => some (s, t, none, col)
    | none => none

/-- Decimal parse with default 0, for the srid strings the metadata pass
itself produced (`int(... or 0)`; those strings are empty or decimal). -/
def digitsToNat : List Char → Nat → Nat
  | [], acc => acc
  | c :: cs, acc => digitsToNat cs (acc * 10 + (c.toNat - 48))

def strToIntD (s : List Char) : Int :=
  match s with
  | [] => 0
  | '-' :: rest => -(digitsToNat rest 0 : Int)
  | _ => (digitsToNat s 0 : Int)

/-- `int(table_meta.get((s,t), {}).get("srid") or 0) or _srid_for(s, t)`. -/
def sridOfMeta (cat : Catalog) (tableMeta : MetaMap) (s t : List Char) : Option Int :=
  let v : Int := strToIntD
    (match metaGet tableMeta (s, t) with
     | some m => m.srid
     | none => [])
  if v ≠ 0 then some v else sridFor cat s t

/-- Python truthiness of an optional integer. -/
def optTruthy (o : Option Int) : Bool :=
  match o with
  | some n => n != 0
  | none => false

/-- Python truthiness of an optional string. -/
def pyTruthyS (o : Option (List Char)) : Bool :=
  match o with
  | some s => s != []
  | none => false

/-- Python `a and a == first_from_alias` for an optional alias. -/
def aliasIsFfa (a ffa : Option (List Char)) : Bool :=
  match a, ffa with
  | some x, some y => x != [] && x == y
  | _, _ => false

/-- `_wrap_transform` from db/sql_fixup.py. -/
def wrap_transform (al col : List Char) (target : Option Int) : List Char :=
  match target with
  | none => al ++ ".".data ++ col
  | some t =>
    if t = 0 then al ++ ".".data ++ col
    else "ST_Transform(".data ++ al ++ ".".data ++ col ++ ",".data ++
      (toString t).data ++ ")".data

/-- `re.search(r"ST_Transform\s*\(", ..., IGNORECASE)`. -/
def hasStTransformAux : Nat → List Char → Bool
  | 0, _ => false
  | _ + 1, [] => false
  | fuel + 1, c :: cs =>
    (startsWithCIL "st_transform".data (c :: cs) &&
      (match (takeRunBy isPyWs ((c :: cs).drop 12)).2 with
       | '(' :: _ => true
       | _ => false)) ||
    hasStTransformAux fuel cs

def hasStTransform (t : List Char) : Bool := hasStTransformAux (t.length + 1) t

/-- `\s*([^,]+)\s*,` with the greedy/backtracking behaviour of the source
pattern; returns (group text, remainder after the comma). -/
def parseArgComma (T : List Char) : Option (List Char × List Char) :=
  let w := takeRunBy isPyWs T
  let run := takeRunBy (fun c => c != ',') w.2
  match run.1 with
  | _ :: _ =>
    match run.2 with
    | ',' :: T2 => some (run.1, T2)
    | _ => none
  | [] =>
    match w.2 with
    | ',' :: T2 =>
      match w.1 with
      | [] => none
      | _ :: _ => some ([w.1.getLastD ' '], T2)
    | _ => none

/-- The closing `\s*(,\s*[^)]+)?\)`; returns (group-4 text, remainder). -/
def parseCloseTail (rest : List Char) : Option (List Char × List Char) :=
  let w := takeRunBy isPyWs rest
  match w.2 with
  | ')' :: r => some ([], r)
  | ',' :: T =>
    let w2 := takeRunBy isPyWs T
    let run := takeRunBy (fun c => c != ')') w2.2
    match run.1 with
    | _ :: _ =>
      match run.2 with
      | ')' :: r => some (',' :: (w2.1 ++ run.1), r)
      | _ => none
    | [] =>
      match w2.2 with
      | ')' :: r =>
        match w2.1 with
        | [] => none
        | _ :: _ => some (',' :: w2.1, r)
      | _ => none
  | _ => none

/-- Greedy splits of the third argument's `[^,]+` run, longest first. -/
def tryRunSplits : Nat → List Char → List Char → Option (List Char × List Char × List Char)
  | 0, _, _ => none
  | k + 1, run, afterRun =>
    match parseCloseTail (run.drop (k + 1) ++ afterRun) with
    | some (g4, r) => some (run.take (k + 1), g4, r)
    | none => tryRunSplits k run afterRun

def parseArg3Core (t : List Char) : Option (List Char × List Char × List Char) :=
  let run := takeRunBy (fun c => c != ',') t
  match run.1 with
  | [] => none
  | _ :: _ => tryRunSplits run.1.length run.1 run.2

/-- Backtracking of the `\s*` before the third argument, one character at a
time (`wsRev` is the consumed whitespace, nearest character first). -/
def parseArg3Bt : List Char → List Char → Option (List Char × List Char × List Char)
  | wsRev, t =>
    match parseArg3Core t with
    | some r => some r
    | none =>
      match wsRev with
      | [] => none
      | c :: rest => parseArg3Bt rest (c :: t)

/-- `\s*([^,]+)\s*(,\s*[^)]+)?\)`: (group 3, group 4, remainder). -/
def parseArg3 (T : List Char) : Option (List Char × List Char × List Char) :=
  let w := takeRunBy isPyWs T
  parseArg3Bt w.1.reverse w.2

structure StPairMatch where
  func : List Char
  arg1 : List Char
  arg2 : List Char
  rest4 : List Char
  matched : List Char
  remainder : List Char
deriving DecidableEq

/-- One attempt of the pass-6 pattern
`\b(ST_DWithin|ST_Intersects)\s*\(\s*([^,]+)\s*,\s*([^,]+)\s*(,\s*[^)]+)?\)`
(IGNORECASE) at the current position. -/
def stPairMatchAt (prev : Option Char) (l : List Char) : Option StPairMatch :=
  let name? : Option (List Char) :=
    if wbBoundary prev && startsWithCIL "st_dwithin".data l then some (l.take 10)
    else if wbBoundary prev && startsWithCIL "st_intersects".data l then some (l.take 13)
    else none
  match name? with
  | none => none
  | some nm =>
    match (takeRunBy isPyWs (l.drop nm.length)).2 with
    | '(' :: T =>
      match parseArgComma T with
      | none => none
      | some (g2, T2) =>
        match parseArg3 T2 with
        | none => none
        | some (g3, g4, r) =>
          some { func := nm, arg1 := g2, arg2 := g3, rest4 := g4,
                 matched := l.take (l.length - r.length), remainder := r }
    | _ => none

/-- `_fix_st_geom_pair` from db/sql_fixup.py: the replacement text and the
fixes recorded for one match. -/
def fixStGeomPair (cat : Catalog) (tableMeta : MetaMap) (aliasMap simpleMap : SimpleMap)
    (wantMetric : Bool) (ffa : Option (List Char)) (m : StPairMatch) :
    List Char × List (List Char) :=
  let arg1 := pyStrip m.arg1
  let arg2 := pyStrip m.arg2
  if hasStTransform arg1 || hasStTransform arg2 then (m.matched, [])
  else
    match resolve_expr aliasMap simpleMap arg1, resolve_expr aliasMap simpleMap arg2 with
    | some (s1, t1, a1, c1), some (s2, t2, a2, c2) =>
      let srid1 := sridOfMeta cat tableMeta s1 t1
      let srid2 := sridOfMeta cat tableMeta s2 t2
      if wantMetric then
        let target : Int := 32719
        let tx1 : Option Int :=
          if aliasIsFfa a1 ffa then none
          else if srid1 ≠ some target then some target else none
        let tx2 : Option Int :=
          if aliasIsFfa a2 ffa then none
          else if srid2 ≠ some target then some target else none
        let new1 :=
          if pyTruthyS a1 then wrap_transform (a1.getD []) c1 tx1
          else if tx1.isSome then
            "ST_Transform(".data ++ s1 ++ ".".data ++ t1 ++ ".".data ++ c1 ++
              ",".data ++ (toString target).data ++ ")".data
          else s1 ++ ".".data ++ t1 ++ ".".data ++ c1
        let new2 :=
          if pyTruthyS a2 then wrap_transform (a2.getD []) c2 tx2
          else if tx2.isSome then
            "ST_Transform(".data ++ s2 ++ ".".data ++ t2 ++ ".".data ++ c2 ++
              ",".data ++ (toString target).data ++ ")".data
          else s2 ++ ".".data ++ t2 ++ ".".data ++ c2
        (m.func ++ "(".data ++ new1 ++ ", ".data ++ new2 ++ m.rest4 ++ ")".data,
         [m.func ++ ": normalizado a EPSG:".data ++ (toString target).data ++
           " (metros/km)".data])
      else
        if optTruthy srid1 && optTruthy srid2 && srid1 ≠ srid2 then
          let v1 := srid1.getD 0
          let v2 := srid2.getD 0
          let pair :=
            if aliasIsFfa a1 ffa then
              ((a1.getD []) ++ ".".data ++ c1,
               if pyTruthyS a2 then wrap_transform (a2.getD []) c2 srid1
               else "ST_Transform(".data ++ s2 ++ ".".data ++ t2 ++ ".".data ++ c2 ++
                 ",".data ++ (toString v1).data ++ ")".data)
            else if aliasIsFfa a2 ffa then
              (if pyTruthyS a1 then wrap_transform (a1.getD []) c1 srid2
               else "ST_Transform(".data ++ s1 ++ ".".data ++ t1 ++ ".".data ++ c1 ++
                 ",".data ++ (toString v2).data ++ ")".data,
               (a2.getD []) ++ ".".data ++ c2)
            else
              (if pyTruthyS a1 then (a1.getD []) ++ ".".data ++ c1
               else s1 ++ ".".data ++ t1 ++ ".".data ++ c1,
               if pyTruthyS a2 then wrap_transform (a2.getD []) c2 srid1
               else "ST_Transform(".data ++ s2 ++ ".".data ++ t2 ++ ".".data ++ c2 ++
                 ",".data ++ (toString v1).data ++ ")".data)
          (m.func ++ "(".data ++ pair.1 ++ ", ".data ++ pair.2 ++ m.rest4 ++ ")".data,
           [m.func ++ ": unificados SRIDs por consistencia".data])
        else (m.matched, [])
    | _, _ => (m.matched, [])

def stPairSubAux (cat : Catalog) (tableMeta : MetaMap) (aliasMap simpleMap : SimpleMap)
    (wantMetric : Bool) (ffa : Option (List Char)) :
    Nat → Option Char → List Char → List Char × List (List Char)
  | 0, _, l => (l, [])
  | _ + 1, _, [] => ([], [])
  | fuel + 1, prev, c :: cs =>
    match stPairMatchAt prev (c :: cs) with
    | some m =>
      let r := fixStGeomPair cat tableMeta aliasMap simpleMap wantMetric ffa m
      let k := stPairSubAux cat tableMeta aliasMap simpleMap wantMetric ffa fuel
        (some ')') m.remainder
      (r.1 ++ k.1, r.2 ++ k.2)
    | none =>
      let k := stPairSubAux cat tableMeta aliasMap simpleMap wantMetric ffa fuel
        (some c) cs
      (c :: k.1, k.2)

/-- Pass 6 of `fix_sql`: `re.sub` with `_fix_st_geom_pair`. -/
def stPairSub (cat : Catalog) (tableMeta : MetaMap) (aliasMap simpleMap : SimpleMap)
    (wantMetric : Bool) (ffa : Option (List Char)) (text : List Char) :
    List Char × List (List Char) :=
  stPairSubAux cat tableMeta aliasMap simpleMap wantMetric ffa (text.length + 1) none text

/-- One attempt of the pass-7 pattern `\bST_Area\s*\(\s*([^)]+)\s*\)`
(IGNORECASE); returns (matched text, group 1, remainder). -/
def stAreaMatchAt (prev : Option Char) (l : List Char) :
    Option (List Char × List Char × List Char) :=
  if wbBoundary prev && startsWithCIL "st_area".data l then
    match (takeRunBy isPyWs (l.drop 7)).2 with
    | '(' :: T =>
      let w := takeRunBy isPyWs T
      let run := takeRunBy (fun c => c != ')') w.2
      match run.1 with
      | _ :: _ =>
        match run.2 with
        | ')' :: r => some (l.take (l.length - r.length), run.1, r)
        | _ => none
      | [] =>
        match w.2 with
        | ')' :: r =>
          match w.1 with
          | [] => none
          | _ :: _ => some (l.take (l.length - r.length), [w.1.getLastD ' '], r)
        | _ => none
    | _ => none
  else none

/-- `_fix_area` from db/sql_fixup.py. -/
def fixArea (aliasMap simpleMap : SimpleMap) (ffa : Option (List Char))
    (matched g1 : List Char) : List Char × List (List Char) :=
  let inner := pyStrip g1
  if hasStTransform inner then ("(".data ++ matched ++ ")/10000.0".data, [])
  else
    match resolve_expr aliasMap simpleMap inner with
    | none => ("(".data ++ matched ++ ")/10000.0".data, [])
    | some (s, t, a, c) =>
      let expr :=
        if aliasIsFfa a ffa then (a.getD []) ++ ".".data ++ c
        else
          "ST_Transform(".data ++
            (if pyTruthyS a then (a.getD []) ++ ".".data ++ c
             else s ++ ".".data ++ t ++ ".".data ++ c) ++
            ",32719)".data
      ("ST_Area(".data ++ expr ++ ")/10000.0".data,
       ["ST_Area: convertido a hectáreas en EPSG:32719".data])

def areaSubAux (aliasMap simpleMap : SimpleMap) (ffa : Option (List Char)) :
    Nat → Option Char → List Char → List Char × List (List Char)
  | 0, _, l => (l, [])
  | _ + 1, _, [] => ([], [])
  | fuel + 1, prev, c :: cs =>
    match stAreaMatchAt prev (c :: cs) with
    | some (matched, g1, rest) =>
      let r := fixArea aliasMap simpleMap ffa matched g1
      let k := areaSubAux aliasMap simpleMap ffa fuel (some ')') rest
      (r.1 ++ k.1, r.2 ++ k.2)
    | none =>
      let k := areaSubAux aliasMap simpleMap ffa fuel (some c) cs
      (c :: k.1, k.2)

/-- Pass 7 of `fix_sql` (only when the question mentions hectares). -/
def areaSub (aliasMap simpleMap : SimpleMap) (ffa : Option (List Char))
    (text : List Char) : List Char × List (List Char) :=
  areaSubAux aliasMap simpleMap ffa (text.length + 1) none text

/-- `fix_sql` from db/sql_fixup.py. -/
def fix_sql (cat : Catalog) (sql question : List Char) :
    List Char × List (List Char) :=
  let tmSm := build_table_meta cat question sql
  let tableMeta := tmSm.1
  let simpleMap := tmSm.2
  let aliasMap := collect_aliases sql
  let st2 := aliasMap.foldl (aliasSubstStep cat tableMeta) (sql, [])
  let st3 := tableMeta.foldl qualSubstStep st2
  let st4 := simpleMap.foldl (simpleSubstStep tableMeta) st3
  let wantMetric := mentions_metric_units question
  let wantHect := mentions_hectares question
  let ffa := first_from_alias st4.1
  let st6r := stPairSub cat tableMeta aliasMap simpleMap wantMetric ffa st4.1
  let st6 : List Char × List (List Char) := (st6r.1, st4.2 ++ st6r.2)
  if wantHect then
    let st7r := areaSub aliasMap simpleMap ffa st6.1
    (st7r.1, st6.2 ++ st7r.2)
  else st6

/-- Scenario-A fixture: the catalog entry for
datos_maestros.dpa_region_subdere, with suggested id objectid (its primary
key) and geometry column geometria. -/
def tiDpaRegion : TableInfo :=
  { schema := "datos_maestros".data, table := "dpa_region_subdere".data,
    columns := [⟨"objectid".data, "integer".data, false, true⟩,
                ⟨"geometria".data, "USER-DEFINED".data, true, false⟩],
    pk_cols := ["objectid".data],
    geom := some ⟨"geometria".data, none, none⟩,
    indexes := [], fks := [] }

def catScenarioA : Catalog := fun s t =>
  if s = "datos_maestros".data ∧ t = "dpa_region_subdere".data then some tiDpaRegion
  else none

def catEmpty : Catalog := fun _ _ => none


/-! ### Claims C5, C6 and C10 about the rewrite engine -/

theorem metaGet_append_none {xs : MetaMap} (k' : List Char × List Char) (v : MetaEntry)
    {k : List Char × List Char} (h : metaGet xs k = none) (hne : k' ≠ k) :
    metaGet (xs ++ [(k', v)]) k = none := by
  induction xs with
  | nil => simp [metaGet, hne]
  | cons p ps ih =>
    obtain ⟨pk, pv⟩ := p
    rw [List.cons_append]
    simp only [metaGet] at h ⊢
    split at h
    · cases h
    · next hcond =>
      rw [if_neg hcond]
      exact ih h

theorem buildMetaStep_absent {cat : Catalog} {refs : List (List Char × List Char)}
    {s t : List Char} (hcat : cat s t = none) (acc : MetaMap × SimpleMap)
    (r : List Char × List Char) (h : metaGet acc.1 (s, t) = none) :
    metaGet (buildMetaStep cat refs acc r).1 (s, t) = none := by
  unfold buildMetaStep
  cases hc : cat r.1 r.2 with
  | none => exact h
  | some ti =>
    simp only []
    apply metaGet_append_none _ _ h
    intro hrk
    rw [hrk] at hc
    simp only [] at hc
    rw [hcat] at hc
    cases hc

theorem foldl_buildMetaStep_absent (cat : Catalog)
    (refs0 : List (List Char × List Char)) {s t : List Char}
    (hcat : cat s t = none) :
    ∀ (rs : List (List Char × List Char)) (acc : MetaMap × SimpleMap),
      metaGet acc.1 (s, t) = none →
      metaGet (rs.foldl (buildMetaStep cat refs0) acc).1 (s, t) = none := by
  intro rs
  induction rs with
  | nil => intro acc h; exact h
  | cons r rest ih =>
    intro acc h
    rw [List.foldl_cons]
    exact ih _ (buildMetaStep_absent hcat acc r h)

/-- A reference the catalog cannot resolve never gains a metadata entry. -/
theorem build_table_meta_absent (cat : Catalog) (question sql s t : List Char)
    (hcat : cat s t = none) :
    metaGet (build_table_meta cat question sql).1 (s, t) = none := by
  unfold build_table_meta
  exact foldl_buildMetaStep_absent cat _ hcat _ ([], []) rfl

/-- C5: (i) an alias bound to a (schema, table) the catalog cannot resolve
is left untouched by the alias-substitution pass — the statement text and
the fix list are unchanged; (ii) Scenario A: with the catalog entry for
datos_maestros.dpa_region_subdere (suggested id objectid, geometry
geometria), the input is rewritten to use the real columns with exactly the
two expected fixes. -/
theorem c5_theorem :
    (∀ (cat : Catalog) (question sql s t al : List Char)
       (st : List Char × List (List Char)),
      cat s t = none →
      aliasSubstStep cat (build_table_meta cat question sql).1 st (al, (s, t)) = st) ∧
    fix_sql catScenarioA
      "SELECT a.id, a.geom FROM datos_maestros.dpa_region_subdere a".data [] =
    ("SELECT a.objectid, a.geometria FROM datos_maestros.dpa_region_subdere a".data,
     ["a.id -> a.objectid".data, "a.geom -> a.geometria".data]) := by
  constructor
  · intro cat question sql s t al st hcat
    have hmeta := build_table_meta_absent cat question sql s t hcat
    unfold aliasSubstStep
    simp only [hmeta, idFor, geomFor, hcat, pyOrOpt]
  · decide

/-- Witness for `c5_theorem` at a concrete unresolvable reference. -/
theorem c5_witness :
    aliasSubstStep catEmpty
      (build_table_meta catEmpty [] "SELECT x FROM s.t a".data).1
      ("SELECT x".data, []) ("a".data, ("s".data, "t".data)) =
    ("SELECT x".data, []) :=
  c5_theorem.1 catEmpty [] "SELECT x FROM s.t a".data "s".data "t".data "a".data
    ("SELECT x".data, []) rfl

/-- C6 counterexample: applying `fix_sql` a second time to its own
Scenario-A output (same empty question) records a fix again — the geometry
column geometria is itself one of the guessed names, so the geometry rule
re-fires — hence the second fix list is not empty. -/
theorem c6_counterexample :
    (fix_sql catScenarioA
      (fix_sql catScenarioA
        "SELECT a.id, a.geom FROM datos_maestros.dpa_region_subdere a".data []).1
      []).2 ≠ [] := by decide

/-- C6 (amended): `rewrite` is not idempotent on the fix list.  On the
Scenario-A fixture the second application leaves the statement text
unchanged but records the geometry fix again (the catalog geometry column
geometria matches the guessed-name pattern `geom|geometry|geometria`). -/
theorem c6_theorem :
    fix_sql catScenarioA
      (fix_sql catScenarioA
        "SELECT a.id, a.geom FROM datos_maestros.dpa_region_subdere a".data []).1
      [] =
    ("SELECT a.objectid, a.geometria FROM datos_maestros.dpa_region_subdere a".data,
     ["a.geom -> a.geometria".data]) := by decide

/-- C10: hectare intent is a raw substring test — the question
"se ha medido la superficie" never mentions hectares (no "hect" substring)
yet contains " ha" (the auxiliary verb), so the area pass fires, divides the
ST_Area call by 10000 and records a fix; likewise the lone substring " m "
triggers metric intent. -/
theorem c10_theorem :
    mentions_hectares "se ha medido la superficie".data = true ∧
    containsSub "hect".data (lowerStr "se ha medido la superficie".data) = false ∧
    fix_sql catEmpty "SELECT ST_Area(a.geom) FROM s.t a".data
        "se ha medido la superficie".data =
      ("SELECT ST_Area(a.geom)/10000.0 FROM s.t a".data,
       ["ST_Area: convertido a hectáreas en EPSG:32719".data]) ∧
    mentions_metric_units "cuantos m de distancia".data = true ∧
    containsSub "metro".data (lowerStr "cuantos m de distancia".data) = false ∧
    containsSub "km".data (lowerStr "cuantos m de distancia".data) = false :=
  ⟨by decide, by decide, by decide, by decide, by decide, by decide⟩
